import Mathlib

/-!
# Module lifecycle orchestrator and plugin loader pipeline

A shallow embedding of `pkg/modules/modules.go` (`service.Init`, `Run`, `Shutdown`,
`IsModuleEnabled`) and `pkg/plugins/manager/loader/loader.go` (`Loader.Load`, `Loader.Unload`).

Conventions of the embedding.

* Everything the Go code reaches through an interface or an imported library (the dskit module
  and service managers, the five pipeline stages) is a parameter: a function on an abstract
  environment state `X`.  A Go `(T, error)` result is an `Except Err T`, a plain `error`
  result is an `Option Err` (`none` is the nil error).
* A `World` threads the environment state, a logical clock and the list of calls made to the
  collaborators, in call order.  The clock is only moved by the code's own blocking receive
  on `ctx.Done()`.
* Calls to the logger do not feed back into control flow and are left out.
-/

namespace Grafana

/-- A `context.Context`, reduced to the logical time at which its `Done` channel is closed
(`none`: the context is never cancelled). -/
structure Context where
  doneAt : Option Nat
deriving DecidableEq, Repr

/-- Whether the context is cancelled at logical time `now`. -/
def Context.cancelled (ctx : Context) (now : Nat) : Bool :=
  match ctx.doneAt with
  | some t => decide (t ≤ now)
  | none => false

/-- Environment state, logical clock and the calls made to collaborators so far. -/
structure World (X C : Type) where
  ext : X
  now : Nat
  log : List C

/-- The world after one collaborator call `c` that left the environment in state `x`. -/
def World.call {X C : Type} (w : World X C) (c : C) (x : X) : World X C :=
  { w with ext := x, log := w.log ++ [c] }

/-! ## Plugin loader (`pkg/plugins/manager/loader/loader.go`) -/

namespace loader

/-- One call of a pipeline stage, with the arguments the loader passed. -/
inductive StageCall (Src Bundle Plugin : Type) where
  | Discover (ctx : Context) (src : Src)
  | Bootstrap (ctx : Context) (src : Src) (bundle : Bundle)
  | Validate (ctx : Context) (p : Plugin)
  | Initialize (ctx : Context) (p : Plugin)
  | Terminate (ctx : Context) (p : Plugin)
deriving DecidableEq, Repr

/-- The `Loader` struct: its five stage collaborators (the logger is left out). -/
structure Loader (X Src Bundle Plugin Err : Type) where
  discovery : Context → Src → X → Except Err (List Bundle) × X
  bootstrap : Context → Src → Bundle → X → Except Err (List Plugin) × X
  validation : Context → Plugin → X → Option Err × X
  initializer : Context → Plugin → X → Except Err Plugin × X
  termination : Context → Plugin → X → Except Err Plugin × X

section
variable {X Src Bundle Plugin Err : Type}

/-- The loop of `Load` over `discoveredPlugins` (lines 48-55); `acc` is `bootstrappedPlugins`. -/
def bootstrapLoop (l : Loader X Src Bundle Plugin Err) (ctx : Context) (src : Src) :
    List Bundle → List Plugin → World X (StageCall Src Bundle Plugin) →
      List Plugin × World X (StageCall Src Bundle Plugin)
  | [], acc, w => (acc, w)
  | foundBundle :: rest, acc, w =>
    match l.bootstrap ctx src foundBundle w.ext with
    | (.error _, x) => bootstrapLoop l ctx src rest acc (w.call (.Bootstrap ctx src foundBundle) x)
    | (.ok bootstrappedPlugin, x) =>
      bootstrapLoop l ctx src rest (acc ++ bootstrappedPlugin)
        (w.call (.Bootstrap ctx src foundBundle) x)

/-- The loop of `Load` over `bootstrappedPlugins` (lines 58-65); `acc` is `validatedPlugins`. -/
def validateLoop (l : Loader X Src Bundle Plugin Err) (ctx : Context) :
    List Plugin → List Plugin → World X (StageCall Src Bundle Plugin) →
      List Plugin × World X (StageCall Src Bundle Plugin)
  | [], acc, w => (acc, w)
  | bootstrappedPlugin :: rest, acc, w =>
    match l.validation ctx bootstrappedPlugin w.ext with
    | (some _, x) => validateLoop l ctx rest acc (w.call (.Validate ctx bootstrappedPlugin) x)
    | (none, x) =>
      validateLoop l ctx rest (acc ++ [bootstrappedPlugin])
        (w.call (.Validate ctx bootstrappedPlugin) x)

/-- The loop of `Load` over `validatedPlugins` (lines 68-75); `acc` is `initializedPlugins`. -/
def initializeLoop (l : Loader X Src Bundle Plugin Err) (ctx : Context) :
    List Plugin → List Plugin → World X (StageCall Src Bundle Plugin) →
      List Plugin × World X (StageCall Src Bundle Plugin)
  | [], acc, w => (acc, w)
  | validatedPlugin :: rest, acc, w =>
    match l.initializer ctx validatedPlugin w.ext with
    | (.error _, x) => initializeLoop l ctx rest acc (w.call (.Initialize ctx validatedPlugin) x)
    | (.ok initializedPlugin, x) =>
      initializeLoop l ctx rest (acc ++ [initializedPlugin])
        (w.call (.Initialize ctx validatedPlugin) x)

/-- `Loader.Load` (lines 39-80).  `instrumentLoad` and the `end` callback it returns only
feed the logger and are left out. -/
def Load (l : Loader X Src Bundle Plugin Err) (ctx : Context) (src : Src)
    (w : World X (StageCall Src Bundle Plugin)) :
    Except Err (List Plugin) × World X (StageCall Src Bundle Plugin) :=
  match l.discovery ctx src w.ext with
  | (.error err, x) => (.error err, w.call (.Discover ctx src) x)
  | (.ok discoveredPlugins, x) =>
    let r1 := bootstrapLoop l ctx src discoveredPlugins [] (w.call (.Discover ctx src) x)
    let r2 := validateLoop l ctx r1.1 [] r1.2
    let r3 := initializeLoop l ctx r2.1 [] r2.2
    (.ok r3.1, r3.2)

/-- `Loader.Unload` (lines 82-84). -/
def Unload (l : Loader X Src Bundle Plugin Err) (ctx : Context) (p : Plugin)
    (w : World X (StageCall Src Bundle Plugin)) :
    Except Err Plugin × World X (StageCall Src Bundle Plugin) :=
  match l.termination ctx p w.ext with
  | (r, x) => (r, w.call (.Terminate ctx p) x)

/-- Stage functions whose results depend on their arguments only (deterministic stages). -/
structure Stages (Src Bundle Plugin Err : Type) where
  discoverFn : Context → Src → Except Err (List Bundle)
  bootstrapFn : Context → Src → Bundle → Except Err (List Plugin)
  validateFn : Context → Plugin → Option Err
  initializeFn : Context → Plugin → Except Err Plugin
  terminateFn : Context → Plugin → Except Err Plugin

/-- A loader over deterministic stages: every stage leaves the environment as it found it. -/
def Stages.toLoader (S : Stages Src Bundle Plugin Err) : Loader X Src Bundle Plugin Err where
  discovery := fun ctx src x => (S.discoverFn ctx src, x)
  bootstrap := fun ctx src b x => (S.bootstrapFn ctx src b, x)
  validation := fun ctx p x => (S.validateFn ctx p, x)
  initializer := fun ctx p x => (S.initializeFn ctx p, x)
  termination := fun ctx p x => (S.terminateFn ctx p, x)

/-- The plugins a bundle contributes: its Bootstrap output, or nothing when Bootstrap fails. -/
def bundlePlugins (S : Stages Src Bundle Plugin Err) (ctx : Context) (src : Src)
    (b : Bundle) : List Plugin :=
  match S.bootstrapFn ctx src b with
  | .ok ps => ps
  | .error _ => []

/-- Concatenation, in bundle order, of the Bootstrap outputs of the bundles that bootstrap. -/
def bootstrappedOf (S : Stages Src Bundle Plugin Err) (ctx : Context) (src : Src)
    (bundles : List Bundle) : List Plugin :=
  (bundles.map (bundlePlugins S ctx src)).flatten

/-- The plugins of a list whose Validate succeeds. -/
def validatedOf (S : Stages Src Bundle Plugin Err) (ctx : Context)
    (ps : List Plugin) : List Plugin :=
  ps.filter (fun p => (S.validateFn ctx p).isNone)

/-- The Initialize output of a plugin, or `none` when Initialize fails. -/
def initializedPlugin? (S : Stages Src Bundle Plugin Err) (ctx : Context)
    (p : Plugin) : Option Plugin :=
  match S.initializeFn ctx p with
  | .ok q => some q
  | .error _ => none

/-- The Initialize outputs of a list, dropping the plugins whose Initialize fails. -/
def initializedOf (S : Stages Src Bundle Plugin Err) (ctx : Context)
    (ps : List Plugin) : List Plugin :=
  ps.filterMap (initializedPlugin? S ctx)

end

end loader

/-! ## Module orchestrator (`pkg/modules/modules.go`) -/

namespace modules

/-- The part of `setting.Cfg` that `ProvideService` reads. -/
structure Cfg where
  Target : List String
deriving DecidableEq, Repr

/-- One call into dskit, with the arguments passed and, for a fallible call, the error it
returned (`none`: nil). -/
inductive DskitCall (MM SM Svc Err : Type) where
  | NewModuleManager (mm : MM)
  | RegisterModule (mm : MM) (name : String) (invisible : Bool)
  | AddDependency (mm : MM) (mod : String) (targets : List String) (err : Option Err)
  | InitModuleServices (mm : MM) (targets : List String) (err : Option Err)
  | NewManager (svcs : List Svc) (err : Option Err)
  | AddListener (sm : SM)
  | StartAsync (sm : SM) (ctx : Context) (err : Option Err)
  | AwaitStopped (sm : SM) (ctx : Context) (err : Option Err)
  | StopAsync (sm : SM)
deriving DecidableEq, Repr

/-- The dskit `modules.Manager` and `services.Manager` operations the orchestrator uses, with
`errors.Is` and the `modules.ErrStopProcess` sentinel.  `MM` and `SM` are the manager
pointers, `Svc` a `services.Service`; their state lives in the environment `X`.
`Failed sm x` is `sm.ServicesByState()[services.Failed]` and `FailureCase f x` the failure
cause of a service in the Failed state. -/
structure Dskit (X MM SM Svc Err : Type) where
  NewModuleManager : X → MM × X
  RegisterModule : MM → String → (X → Except Err Svc × X) → Bool → X → X
  AddDependency : MM → String → List String → X → Option Err × X
  InitModuleServices : MM → List String → X → Except Err (List (String × Svc)) × X
  NewManager : List Svc → X → Except Err SM × X
  AddListener : SM → X → X
  StartAsync : SM → Context → X → Option Err × X
  AwaitStopped : SM → Context → X → Option Err × X
  StopAsync : SM → X → X
  Failed : SM → X → List Svc
  FailureCase : Svc → X → Err
  Is : Err → Err → Bool
  ErrStopProcess : Err

/-- The `service` struct (lines 29-37), without its logger.  `ServiceMap` lists the entries
of the Go map in the order a `range` over it visits them. -/
structure service (MM SM Svc : Type) where
  cfg : Cfg
  targets : List String
  ModuleManager : MM
  ServiceManager : Option SM
  ServiceMap : List (String × Svc)

/-- How a call of `Run` ends. -/
inductive Outcome (Err : Type) where
  /-- The call returned `err`. -/
  | ret (err : Option Err)
  /-- The call panicked on a method of a nil `*services.Manager`. -/
  | nilDeref
  /-- The call never returns. -/
  | blocked
deriving DecidableEq, Repr

/-- Modelled from the spec: the helper `stringsContain` of package `modules`, which is not
among the sources; `IsModuleEnabled` is a "pure membership test against the originally
requested target list". -/
def stringsContain : List String → String → Bool
  | [], _ => false
  | v :: rest, search => if search = v then true else stringsContain rest search

section
variable {X MM SM Svc Err : Type}

/-- `ProvideService` (lines 39-52). -/
def ProvideService (D : Dskit X MM SM Svc Err) (cfg : Cfg)
    (w : World X (DskitCall MM SM Svc Err)) :
    service MM SM Svc × World X (DskitCall MM SM Svc Err) :=
  match D.NewModuleManager w.ext with
  | (mm, x) =>
    ({ cfg := cfg, targets := cfg.Target, ModuleManager := mm,
       ServiceManager := none, ServiceMap := [] },
     w.call (.NewModuleManager mm) x)

/-- The loop of `Init` over `DependencyMap` (lines 59-63); the list gives the entries in the
order the `range` visits them. -/
def addDependencies (D : Dskit X MM SM Svc Err) (mm : MM) :
    List (String × List String) → World X (DskitCall MM SM Svc Err) →
      Option Err × World X (DskitCall MM SM Svc Err)
  | [], w => (none, w)
  | (mod, targets) :: rest, w =>
    match D.AddDependency mm mod targets w.ext with
    | (some err, x) => (some err, w.call (.AddDependency mm mod targets (some err)) x)
    | (none, x) => addDependencies D mm rest (w.call (.AddDependency mm mod targets none) x)

/-- The environment after `AddDependency` has been called for each of `edges`, in order,
starting from `x`. -/
def envAfterEdges (D : Dskit X MM SM Svc Err) (mm : MM) : List (String × List String) → X → X
  | [], x => x
  | (mod, targets) :: rest, x =>
    envAfterEdges D mm rest (D.AddDependency mm mod targets x).2

/-- Whether every `AddDependency` call for `edges`, made in order starting from `x`, returns
nil. -/
def edgesSucceed (D : Dskit X MM SM Svc Err) (mm : MM) :
    List (String × List String) → X → Bool
  | [], _ => true
  | (mod, targets) :: rest, x =>
    (D.AddDependency mm mod targets x).1.isNone &&
      edgesSucceed D mm rest (D.AddDependency mm mod targets x).2

/-- The log entry of an `AddDependency` call for edge `d` that returned nil. -/
def edgeOk (mm : MM) (d : String × List String) : DskitCall MM SM Svc Err :=
  .AddDependency mm d.1 d.2 none

/-- `service.Init` (lines 55-82).  `DependencyMap` is the package-level table, which is not
among the sources.  When `InitModuleServices` or `NewManager` fails, the value it returns
with the error is nil and is assigned to the field all the same. -/
def Init (D : Dskit X MM SM Svc Err) (DependencyMap : List (String × List String))
    (m : service MM SM Svc) (_ctx : Context) (w : World X (DskitCall MM SM Svc Err)) :
    Option Err × service MM SM Svc × World X (DskitCall MM SM Svc Err) :=
  match addDependencies D m.ModuleManager DependencyMap w with
  | (some err, w1) => (some err, m, w1)
  | (none, w1) =>
    match D.InitModuleServices m.ModuleManager m.targets w1.ext with
    | (.error err, x) =>
      (some err, { m with ServiceMap := [] },
        w1.call (.InitModuleServices m.ModuleManager m.targets (some err)) x)
    | (.ok smap, x) =>
      let m1 : service MM SM Svc := { m with ServiceMap := smap }
      let w2 := w1.call (.InitModuleServices m.ModuleManager m.targets none) x
      if m1.ServiceMap.length = 0 then (none, m1, w2)
      else
        let svcs := m1.ServiceMap.map Prod.snd
        match D.NewManager svcs w2.ext with
        | (.error err, x2) =>
          (some err, { m1 with ServiceManager := none }, w2.call (.NewManager svcs (some err)) x2)
        | (.ok sm, x2) =>
          (none, { m1 with ServiceManager := some sm }, w2.call (.NewManager svcs none) x2)

/-- The loop of `Run` over the Failed services (lines 111-117), read in environment `x`. -/
def failedLoop (D : Dskit X MM SM Svc Err) (x : X) : List Svc → Option Err
  | [] => none
  | f :: rest =>
    if !D.Is (D.FailureCase f x) D.ErrStopProcess then some (D.FailureCase f x)
    else failedLoop D x rest

/-- `service.Run` (lines 85-120). -/
def Run (D : Dskit X MM SM Svc Err) (m : service MM SM Svc) (ctx : Context)
    (w : World X (DskitCall MM SM Svc Err)) :
    Outcome Err × World X (DskitCall MM SM Svc Err) :=
  if m.ServiceMap.length = 0 then
    match ctx.doneAt with
    | none => (.blocked, w)
    | some t => (.ret none, { w with now := max w.now t })
  else
    match m.ServiceManager with
    | none => (.nilDeref, w)
    | some sm =>
      let w1 := w.call (.AddListener sm) (D.AddListener sm w.ext)
      match D.StartAsync sm ctx w1.ext with
      | (some err, x) => (.ret (some err), w1.call (.StartAsync sm ctx (some err)) x)
      | (none, x) =>
        let w2 := w1.call (.StartAsync sm ctx none) x
        match D.AwaitStopped sm ctx w2.ext with
        | (some err, x2) => (.ret (some err), w2.call (.AwaitStopped sm ctx (some err)) x2)
        | (none, x2) =>
          let w3 := w2.call (.AwaitStopped sm ctx none) x2
          (.ret (failedLoop D w3.ext (D.Failed sm w3.ext)), w3)

/-- `service.Shutdown` (lines 123-131). -/
def Shutdown (D : Dskit X MM SM Svc Err) (m : service MM SM Svc) (ctx : Context)
    (w : World X (DskitCall MM SM Svc Err)) :
    Option Err × World X (DskitCall MM SM Svc Err) :=
  match m.ServiceManager with
  | none => (none, w)
  | some sm =>
    let w1 := w.call (.StopAsync sm) (D.StopAsync sm w.ext)
    match D.AwaitStopped sm ctx w1.ext with
    | (err, x) => (err, w1.call (.AwaitStopped sm ctx err) x)

/-- `service.RegisterModule` (lines 134-136). -/
def RegisterModule (D : Dskit X MM SM Svc Err) (m : service MM SM Svc) (name : String)
    (initFn : X → Except Err Svc × X) (w : World X (DskitCall MM SM Svc Err)) :
    World X (DskitCall MM SM Svc Err) :=
  w.call (.RegisterModule m.ModuleManager name false)
    (D.RegisterModule m.ModuleManager name initFn false w.ext)

/-- `service.RegisterInvisibleModule` (lines 139-141). -/
def RegisterInvisibleModule (D : Dskit X MM SM Svc Err) (m : service MM SM Svc) (name : String)
    (initFn : X → Except Err Svc × X) (w : World X (DskitCall MM SM Svc Err)) :
    World X (DskitCall MM SM Svc Err) :=
  w.call (.RegisterModule m.ModuleManager name true)
    (D.RegisterModule m.ModuleManager name initFn true w.ext)

/-- `service.IsModuleEnabled` (lines 144-146). -/
def IsModuleEnabled (m : service MM SM Svc) (name : String) : Bool :=
  stringsContain m.targets name

end

/-- Whether a dskit call is a call of `InitModuleServices`. -/
def DskitCall.isInitModuleServices {MM SM Svc Err : Type} : DskitCall MM SM Svc Err → Bool
  | .InitModuleServices _ _ _ => true
  | _ => false

/-- Whether a dskit call is a call of `services.NewManager`. -/
def DskitCall.isNewManager {MM SM Svc Err : Type} : DskitCall MM SM Svc Err → Bool
  | .NewManager _ _ => true
  | _ => false

end modules

/-! ## Concrete instances -/

/-- A context that is cancelled from logical time 0 on. -/
def cancelledCtx : Context := { doneAt := some 0 }

/-- A context that is never cancelled. -/
def liveCtx : Context := { doneAt := none }

namespace loader

/-- Deterministic stages over numbered bundles and plugins: discovery finds bundles 1, 2, 3;
bundle 2 fails Bootstrap, bundle `b` yields plugins `10 b` and `10 b + 1`; plugin 11 fails
Validate; plugin 30 fails Initialize, plugin `p` initializes to `p + 100`; plugin 0 fails
Terminate.  No stage looks at the context. -/
def demoStages : Stages Unit Nat Nat String where
  discoverFn := fun _ _ => .ok [1, 2, 3]
  bootstrapFn := fun _ _ b => if b = 2 then .error "bootstrap failed" else .ok [10 * b, 10 * b + 1]
  validateFn := fun _ p => if p = 11 then some "invalid signature" else none
  initializeFn := fun _ p => if p = 30 then .error "init failed" else .ok (p + 100)
  terminateFn := fun _ p => if p = 0 then .error "terminate failed" else .ok (p + 1000)

/-- The demo stages with a discovery that fails. -/
def demoStagesNoSource : Stages Unit Nat Nat String :=
  { demoStages with discoverFn := fun _ _ => .error "source unreadable" }



/-- An initial world for the loader: nothing called yet. -/
def world0 : World Unit (StageCall Unit Nat Nat) := { ext := (), now := 0, log := [] }

/-- A loader over an environment that counts the teardown steps done on the plugin: its
Terminator completes a first step and fails in the second.  The other stages are the demo
stages. -/
def twoStepLoader : Loader Nat Unit Nat Nat String :=
  { (demoStages.toLoader : Loader Nat Unit Nat Nat String) with
    termination := fun _ _ x => (.error "deregister failed", x + 1) }

/-- An initial world for `twoStepLoader`: no teardown step done, nothing called yet. -/
def stepWorld0 : World Nat (StageCall Unit Nat Nat) := { ext := 0, now := 0, log := [] }

end loader

namespace modules

/-- A small dskit whose environment counts the calls made.  Module "ghost" is unknown to
`AddDependency`; target "broken" has a failing constructor; any other non-empty target list
yields one service per target (its length) plus service 1 for module "A", on which every
target depends.  Services 1, 2, 3 end Failed, service 1 with the stop sentinel, service 2
with "boom", service 3 with "bang".  Waiting under a context cancelled at time 0 fails. -/
def demoDskit : Dskit Nat Unit Nat Nat String where
  NewModuleManager := fun x => ((), x + 1)
  RegisterModule := fun _ _ _ _ x => x + 1
  AddDependency := fun _ mod _ x =>
    (if mod = "ghost" then some "no such module: ghost" else none, x + 1)
  InitModuleServices := fun _ targets x =>
    (if targets.contains "broken" then .error "constructor failed"
     else if targets.isEmpty then .ok []
     else .ok (("A", 1) :: targets.map (fun t => (t, t.length + 1))), x + 1)
  NewManager := fun svcs x => (if svcs.isEmpty then .error "no services" else .ok svcs.length, x + 1)
  AddListener := fun _ x => x + 1
  StartAsync := fun _ _ x => (none, x + 1)
  AwaitStopped := fun _ ctx x =>
    (if ctx.doneAt = some 0 then some "context canceled" else none, x + 1)
  StopAsync := fun _ x => x + 1
  Failed := fun _ _ => [1, 2, 3]
  FailureCase := fun f _ => if f = 1 then "stop" else if f = 2 then "boom" else "bang"
  Is := fun e t => e == t
  ErrStopProcess := "stop"

/-- An initial world for the orchestrator: nothing called yet. -/
def mworld0 : World Nat (DskitCall Unit Nat Nat String) := { ext := 0, now := 0, log := [] }

/-- A context cancelled at logical time 5. -/
def ctxDoneAt5 : Context := { doneAt := some 5 }

/-- A service after a successful `Init` for target "B": services for "A" and "B" under
manager 2. -/
def startedService : service Unit Nat Nat :=
  { cfg := { Target := ["B"] }, targets := ["B"], ModuleManager := (),
    ServiceManager := some 2, ServiceMap := [("A", 1), ("B", 2)] }

/-- A service with no targets, as `ProvideService` and an `Init` with nothing to build
leave it. -/
def idleService : service Unit Nat Nat :=
  { cfg := { Target := [] }, targets := [], ModuleManager := (),
    ServiceManager := none, ServiceMap := [] }

/-- The service `ProvideService` builds on the demo dskit for the given targets. -/
def demoService (targets : List String) : service Unit Nat Nat :=
  (ProvideService demoDskit { Target := targets } mworld0).1

/-- A dependency table with an edge for the unknown module "ghost". -/
def ghostDeps : List (String × List String) := [("B", ["A"]), ("ghost", ["A"]), ("C", [])]

/-- A dependency table over known modules only. -/
def demoDeps : List (String × List String) := [("B", ["A"]), ("C", [])]

/-- The demo dskit with an `InitModuleServices` that builds service 1 for module "A" when it
is the first dskit call and nothing on any later call. -/
def flakyDskit : Dskit Nat Unit Nat Nat String :=
  { demoDskit with
    InitModuleServices := fun _ _ x => (if x = 0 then .ok [("A", 1)] else .ok [], x + 1) }

/-- A first `Init` of the service for target "A" on the flaky dskit. -/
def firstInit : Option String × service Unit Nat Nat × World Nat (DskitCall Unit Nat Nat String) :=
  Init flakyDskit [] (demoService ["A"]) liveCtx mworld0

/-- A second `Init` of the same service, in the world the first one left. -/
def secondInit : Option String × service Unit Nat Nat × World Nat (DskitCall Unit Nat Nat String) :=
  Init flakyDskit [] firstInit.2.1 liveCtx firstInit.2.2

end modules

/-! ## Theorems: plugin loader -/

namespace loader

section
variable {X Src Bundle Plugin Err : Type}

theorem bootstrapLoop_log (l : Loader X Src Bundle Plugin Err) (ctx : Context) (src : Src)
    (bs : List Bundle) (acc : List Plugin) (w : World X (StageCall Src Bundle Plugin)) :
    (bootstrapLoop l ctx src bs acc w).2.log = w.log ++ bs.map (StageCall.Bootstrap ctx src) := by
  induction bs generalizing acc w with
  | nil => simp [bootstrapLoop]
  | cons b rest ih =>
    simp only [bootstrapLoop]
    split <;> simp [ih, World.call]

theorem validateLoop_log (l : Loader X Src Bundle Plugin Err) (ctx : Context)
    (ps : List Plugin) (acc : List Plugin) (w : World X (StageCall Src Bundle Plugin)) :
    (validateLoop l ctx ps acc w).2.log = w.log ++ ps.map (StageCall.Validate ctx) := by
  induction ps generalizing acc w with
  | nil => simp [validateLoop]
  | cons p rest ih =>
    simp only [validateLoop]
    split <;> simp [ih, World.call]

theorem initializeLoop_log (l : Loader X Src Bundle Plugin Err) (ctx : Context)
    (ps : List Plugin) (acc : List Plugin) (w : World X (StageCall Src Bundle Plugin)) :
    (initializeLoop l ctx ps acc w).2.log = w.log ++ ps.map (StageCall.Initialize ctx) := by
  induction ps generalizing acc w with
  | nil => simp [initializeLoop]
  | cons p rest ih =>
    simp only [initializeLoop]
    split <;> simp [ih, World.call]

theorem bootstrapLoop_pure (S : Stages Src Bundle Plugin Err) (ctx : Context) (src : Src)
    (bs : List Bundle) (acc : List Plugin) (w : World X (StageCall Src Bundle Plugin)) :
    (bootstrapLoop S.toLoader ctx src bs acc w).1 = acc ++ bootstrappedOf S ctx src bs := by
  induction bs generalizing acc w with
  | nil => simp [bootstrapLoop, bootstrappedOf]
  | cons b rest ih =>
    simp only [bootstrapLoop, Stages.toLoader]
    cases hb : S.bootstrapFn ctx src b with
    | error e =>
      have := ih acc (w.call (.Bootstrap ctx src b) w.ext)
      simp only [Stages.toLoader] at this
      simp [this, bootstrappedOf, bundlePlugins, hb]
    | ok ps =>
      have := ih (acc ++ ps) (w.call (.Bootstrap ctx src b) w.ext)
      simp only [Stages.toLoader] at this
      simp [this, bootstrappedOf, bundlePlugins, hb]

theorem validateLoop_pure (S : Stages Src Bundle Plugin Err) (ctx : Context)
    (ps : List Plugin) (acc : List Plugin) (w : World X (StageCall Src Bundle Plugin)) :
    (validateLoop S.toLoader ctx ps acc w).1 = acc ++ validatedOf S ctx ps := by
  induction ps generalizing acc w with
  | nil => simp [validateLoop, validatedOf]
  | cons p rest ih =>
    simp only [validateLoop, Stages.toLoader]
    cases hv : S.validateFn ctx p with
    | some e =>
      have := ih acc (w.call (.Validate ctx p) w.ext)
      simp only [Stages.toLoader] at this
      simp [this, validatedOf, hv]
    | none =>
      have := ih (acc ++ [p]) (w.call (.Validate ctx p) w.ext)
      simp only [Stages.toLoader] at this
      simp [this, validatedOf, hv]

theorem initializeLoop_pure (S : Stages Src Bundle Plugin Err) (ctx : Context)
    (ps : List Plugin) (acc : List Plugin) (w : World X (StageCall Src Bundle Plugin)) :
    (initializeLoop S.toLoader ctx ps acc w).1 = acc ++ initializedOf S ctx ps := by
  induction ps generalizing acc w with
  | nil => simp [initializeLoop, initializedOf]
  | cons p rest ih =>
    simp only [initializeLoop, Stages.toLoader]
    cases hi : S.initializeFn ctx p with
    | error e =>
      have := ih acc (w.call (.Initialize ctx p) w.ext)
      simp only [Stages.toLoader] at this
      simp [this, initializedOf, initializedPlugin?, hi]
    | ok q =>
      have := ih (acc ++ [q]) (w.call (.Initialize ctx p) w.ext)
      simp only [Stages.toLoader] at this
      simp [this, initializedOf, initializedPlugin?, hi]

theorem Load_pure (S : Stages Src Bundle Plugin Err) (ctx : Context) (src : Src)
    (w : World X (StageCall Src Bundle Plugin)) (bundles : List Bundle)
    (hd : S.discoverFn ctx src = .ok bundles) :
    (Load S.toLoader ctx src w).1 =
      .ok (initializedOf S ctx (validatedOf S ctx (bootstrappedOf S ctx src bundles))) := by
  have h1 := bootstrapLoop_pure S ctx src bundles [] (w.call (.Discover ctx src) w.ext)
  simp only [List.nil_append] at h1
  unfold Load
  have hdisc : (S.toLoader (X := X)).discovery ctx src w.ext = (.ok bundles, w.ext) := by
    simp [Stages.toLoader, hd]
  rw [hdisc]
  simp only [h1, validateLoop_pure, initializeLoop_pure, List.nil_append]

theorem validatedOf_length (S : Stages Src Bundle Plugin Err) (ctx : Context)
    (ps : List Plugin) :
    (validatedOf S ctx ps).length
      + (ps.filter (fun p => (S.validateFn ctx p).isSome)).length = ps.length := by
  induction ps with
  | nil => simp [validatedOf]
  | cons p rest ih =>
    simp only [validatedOf] at ih ⊢
    cases hv : S.validateFn ctx p <;> simp [List.filter_cons, hv] <;> omega

theorem initializedOf_length (S : Stages Src Bundle Plugin Err) (ctx : Context)
    (ps : List Plugin) :
    (initializedOf S ctx ps).length
      + (ps.filter (fun p => (initializedPlugin? S ctx p).isNone)).length = ps.length := by
  induction ps with
  | nil => simp [initializedOf]
  | cons p rest ih =>
    simp only [initializedOf] at ih ⊢
    cases hi : initializedPlugin? S ctx p <;>
      simp [List.filter_cons, List.filterMap_cons, hi] <;> omega

theorem bootstrappedOf_append (S : Stages Src Bundle Plugin Err) (ctx : Context) (src : Src)
    (xs ys : List Bundle) :
    bootstrappedOf S ctx src (xs ++ ys)
      = bootstrappedOf S ctx src xs ++ bootstrappedOf S ctx src ys := by
  simp [bootstrappedOf]

/-- C2. For deterministic stages and a successful Discover yielding `bundles`, `Load` returns
the Bootstrap outputs of the bundles that bootstrap, concatenated in bundle order, filtered by
a successful Validate and mapped through Initialize with the failures dropped.  Its length is
the number of bootstrapped plugins minus the validation failures minus the initialization
failures, the survivors appear in bootstrap emission order, and a bundle whose Bootstrap fails
contributes nothing and leaves its siblings' plugins in place (of three bundles with the second
failing, only the plugins of the first and third are processed). -/
theorem Load_returns_surviving_plugins (S : Stages Src Bundle Plugin Err) (ctx : Context)
    (src : Src) (w : World X (StageCall Src Bundle Plugin)) (bundles : List Bundle)
    (hd : S.discoverFn ctx src = .ok bundles) :
    (Load S.toLoader ctx src w).1 =
        .ok (initializedOf S ctx (validatedOf S ctx (bootstrappedOf S ctx src bundles))) ∧
    (initializedOf S ctx (validatedOf S ctx (bootstrappedOf S ctx src bundles))).length =
        (bootstrappedOf S ctx src bundles).length
          - ((bootstrappedOf S ctx src bundles).filter
              (fun p => (S.validateFn ctx p).isSome)).length
          - ((validatedOf S ctx (bootstrappedOf S ctx src bundles)).filter
              (fun p => (initializedPlugin? S ctx p).isNone)).length ∧
    ((bootstrappedOf S ctx src bundles).filter (fun p => (S.validateFn ctx p).isSome)).length
        + ((validatedOf S ctx (bootstrappedOf S ctx src bundles)).filter
              (fun p => (initializedPlugin? S ctx p).isNone)).length
        ≤ (bootstrappedOf S ctx src bundles).length ∧
    initializedOf S ctx (validatedOf S ctx (bootstrappedOf S ctx src bundles)) =
        (bootstrappedOf S ctx src bundles).filterMap
          (fun p => if (S.validateFn ctx p).isNone then initializedPlugin? S ctx p else none) ∧
    (∀ pre b post e, bundles = pre ++ b :: post → S.bootstrapFn ctx src b = .error e →
        bootstrappedOf S ctx src bundles
          = bootstrappedOf S ctx src pre ++ bootstrappedOf S ctx src post) ∧
    (∀ b1 b2 b3 e, bundles = [b1, b2, b3] → S.bootstrapFn ctx src b2 = .error e →
        (Load S.toLoader ctx src w).1 =
          .ok (initializedOf S ctx (validatedOf S ctx
                (bundlePlugins S ctx src b1 ++ bundlePlugins S ctx src b3)))) := by
  have hload := Load_pure S ctx src w bundles hd
  have hv := validatedOf_length S ctx (bootstrappedOf S ctx src bundles)
  have hi := initializedOf_length S ctx (validatedOf S ctx (bootstrappedOf S ctx src bundles))
  refine ⟨hload, by omega, by omega, ?_, ?_, ?_⟩
  · simp only [initializedOf, validatedOf]
    rw [List.filterMap_filter]
  · intro pre b post e hb he
    subst hb
    have hcons : b :: post = [b] ++ post := rfl
    rw [hcons, bootstrappedOf_append, bootstrappedOf_append]
    simp [bootstrappedOf, bundlePlugins, he]
  · intro b1 b2 b3 e hb he
    subst hb
    rw [hload]
    simp [bootstrappedOf, bundlePlugins, he]

/-- Witness for C2 on the demo stages: bundles 1, 2, 3 with bundle 2 failing Bootstrap,
plugin 11 failing Validate and plugin 30 failing Initialize leave plugins 110 and 131. -/
theorem Load_returns_surviving_plugins_witness :
    demoStages.discoverFn liveCtx () = .ok [1, 2, 3] ∧
    (Load demoStages.toLoader liveCtx () world0).1 = .ok [110, 131] :=
  ⟨rfl, (Load_returns_surviving_plugins demoStages liveCtx () world0 [1, 2, 3] rfl).1.trans rfl⟩

/-- C3. `Load` returns an error exactly when Discover does, and then it is Discover's error:
the only stage call made is the one to Discover (Bootstrap, Validate and Initialize are not
invoked) and no plugin list is returned.  Whenever Discover succeeds, `Load` returns a plugin
list with a nil error, whatever the later stages return. -/
theorem Load_error_iff_discover_error (l : Loader X Src Bundle Plugin Err) (ctx : Context)
    (src : Src) (w : World X (StageCall Src Bundle Plugin)) :
    (∀ e, (Load l ctx src w).1 = .error e ↔ (l.discovery ctx src w.ext).1 = .error e) ∧
    (∀ e, (l.discovery ctx src w.ext).1 = .error e →
        (Load l ctx src w).2.log = w.log ++ [StageCall.Discover ctx src] ∧
        (Load l ctx src w).2.ext = (l.discovery ctx src w.ext).2) ∧
    (∀ bs, (l.discovery ctx src w.ext).1 = .ok bs → ∃ ps, (Load l ctx src w).1 = .ok ps) := by
  unfold Load
  rcases hd : l.discovery ctx src w.ext with ⟨r, x⟩
  cases r with
  | error err => simp [World.call]
  | ok bundles => simp

/-- Witness for C3: with a failing discovery the demo loader returns that error after the
single Discover call; with a working one it returns a list although later stages fail. -/
theorem Load_error_iff_discover_error_witness :
    Load (X := Unit) demoStagesNoSource.toLoader liveCtx () world0
      = (.error "source unreadable",
          { ext := (), now := 0, log := [StageCall.Discover liveCtx ()] }) ∧
    (∃ ps, (Load (X := Unit) demoStages.toLoader liveCtx () world0).1 = .ok ps) :=
  ⟨rfl, (Load_error_iff_discover_error demoStages.toLoader liveCtx () world0).2.2 [1, 2, 3] rfl⟩

/-- C8 fails on the code: when the Terminator fails after it has changed the environment
(here, after the first of two teardown steps), `Unload` returns the error and the change
stays. -/
theorem Unload_failure_keeps_changes_counterexample :
    Unload twoStepLoader liveCtx 110 stepWorld0
      = (.error "deregister failed",
          { ext := 1, now := 0, log := [StageCall.Terminate liveCtx 110] }) ∧
    (Unload twoStepLoader liveCtx 110 stepWorld0).2.ext ≠ stepWorld0.ext :=
  ⟨rfl, by decide⟩

/-- C8 as amended. `Unload` makes exactly one stage call, `Terminate ctx p`, and returns
exactly the result of the Terminator, plugin record or error alike; it restores nothing and
adds nothing, so the environment after `Unload`, on success and on failure, is the one the
Terminator left. -/
theorem Unload_is_one_terminate (l : Loader X Src Bundle Plugin Err) (ctx : Context)
    (p : Plugin) (w : World X (StageCall Src Bundle Plugin)) :
    (Unload l ctx p w).1 = (l.termination ctx p w.ext).1 ∧
    (Unload l ctx p w).2.ext = (l.termination ctx p w.ext).2 ∧
    (Unload l ctx p w).2.log = w.log ++ [StageCall.Terminate ctx p] ∧
    (Unload l ctx p w).2.now = w.now ∧
    (∀ q, (l.termination ctx p w.ext).1 = .ok q → (Unload l ctx p w).1 = .ok q) ∧
    (∀ e, (l.termination ctx p w.ext).1 = .error e →
        (Unload l ctx p w).1 = .error e ∧
        (Unload l ctx p w).2.ext = (l.termination ctx p w.ext).2) := by
  unfold Unload
  rcases ht : l.termination ctx p w.ext with ⟨r, x⟩
  exact ⟨rfl, rfl, rfl, rfl, fun _ hq => hq, fun _ he => ⟨he, rfl⟩⟩

/-- Witness for the amended C8: on the demo stages plugin 110 is terminated to 1110; on the
two-step Terminator the error comes back and the environment is the one it left. -/
theorem Unload_is_one_terminate_witness :
    Unload (X := Unit) demoStages.toLoader liveCtx 110 world0
      = (.ok 1110, { ext := (), now := 0, log := [StageCall.Terminate liveCtx 110] }) ∧
    ((Unload twoStepLoader liveCtx 110 stepWorld0).1 = .error "deregister failed" ∧
      (Unload twoStepLoader liveCtx 110 stepWorld0).2.ext = 1) :=
  ⟨rfl, (Unload_is_one_terminate twoStepLoader liveCtx 110 stepWorld0).2.2.2.2.2
      "deregister failed" rfl⟩

/-- C9 fails on the code: under a context that is already cancelled when `Load` is entered,
every stage is still invoked on every item that reaches it. -/
theorem Load_ignores_cancellation_counterexample :
    cancelledCtx.cancelled world0.now = true ∧
    (Load (X := Unit) demoStages.toLoader cancelledCtx () world0).2.log =
      [ StageCall.Discover cancelledCtx (),
        StageCall.Bootstrap cancelledCtx () 1, StageCall.Bootstrap cancelledCtx () 2,
        StageCall.Bootstrap cancelledCtx () 3,
        StageCall.Validate cancelledCtx 10, StageCall.Validate cancelledCtx 11,
        StageCall.Validate cancelledCtx 30, StageCall.Validate cancelledCtx 31,
        StageCall.Initialize cancelledCtx 10, StageCall.Initialize cancelledCtx 30,
        StageCall.Initialize cancelledCtx 31 ] ∧
    (Load (X := Unit) demoStages.toLoader cancelledCtx () world0).1 = .ok [110, 131] :=
  ⟨rfl, rfl, rfl⟩

/-- C9 as amended. `Load` never inspects the context: after a successful Discover it calls
Bootstrap on every discovered bundle, Validate on every bootstrapped plugin and Initialize on
every validated plugin, each time with the context it was given, whether or not that context
is cancelled. -/
theorem Load_calls_every_item (l : Loader X Src Bundle Plugin Err) (ctx : Context)
    (src : Src) (w : World X (StageCall Src Bundle Plugin)) (bundles : List Bundle) (x : X)
    (hd : l.discovery ctx src w.ext = (.ok bundles, x)) :
    (Load l ctx src w).2.log =
      w.log ++ [StageCall.Discover ctx src]
        ++ bundles.map (StageCall.Bootstrap ctx src)
        ++ (bootstrapLoop l ctx src bundles [] (w.call (.Discover ctx src) x)).1.map
            (StageCall.Validate ctx)
        ++ (validateLoop l ctx
              (bootstrapLoop l ctx src bundles [] (w.call (.Discover ctx src) x)).1 []
              (bootstrapLoop l ctx src bundles [] (w.call (.Discover ctx src) x)).2).1.map
            (StageCall.Initialize ctx) := by
  unfold Load
  rw [hd]
  simp only [initializeLoop_log, validateLoop_log, bootstrapLoop_log, World.call]

/-- Witness for the amended C9 on the demo stages under the cancelled context. -/
theorem Load_calls_every_item_witness :
    cancelledCtx.cancelled world0.now = true ∧
    (demoStages.toLoader (X := Unit)).discovery cancelledCtx () world0.ext = (.ok [1, 2, 3], ()) ∧
    (Load (X := Unit) demoStages.toLoader cancelledCtx () world0).2.log =
      world0.log ++ [StageCall.Discover cancelledCtx ()]
        ++ [1, 2, 3].map (StageCall.Bootstrap cancelledCtx ())
        ++ [10, 11, 30, 31].map (StageCall.Validate cancelledCtx)
        ++ [10, 30, 31].map (StageCall.Initialize cancelledCtx) :=
  ⟨rfl, rfl, Load_calls_every_item demoStages.toLoader cancelledCtx () world0 [1, 2, 3] () rfl⟩

end

end loader

/-! ## Theorems: module orchestrator -/

namespace modules

section
variable {X MM SM Svc Err : Type}

theorem failedLoop_eq_find (D : Dskit X MM SM Svc Err) (x : X) (failed : List Svc) :
    failedLoop D x failed =
      (failed.find? (fun f => !D.Is (D.FailureCase f x) D.ErrStopProcess)).map
        (fun f => D.FailureCase f x) := by
  induction failed with
  | nil => rfl
  | cons f rest ih =>
    simp only [failedLoop, List.find?_cons]
    cases h : D.Is (D.FailureCase f x) D.ErrStopProcess <;> simp [ih]

/-- C1. On a service with a non-empty ServiceMap and a Service Manager on which `StartAsync`
and `AwaitStopped` both return nil, `Run` returns the failure cause of the first service of
the manager's Failed list whose cause is not `ErrStopProcess` by `errors.Is`, and it returns
nil exactly when the cause of every Failed service is the sentinel (in particular when the
Failed list is empty). -/
theorem Run_returns_first_genuine_failure (D : Dskit X MM SM Svc Err)
    (m : service MM SM Svc) (ctx : Context) (w : World X (DskitCall MM SM Svc Err)) (sm : SM)
    (hmap : m.ServiceMap ≠ []) (hsm : m.ServiceManager = some sm)
    (hstart : (D.StartAsync sm ctx (D.AddListener sm w.ext)).1 = none)
    (hawait :
      (D.AwaitStopped sm ctx (D.StartAsync sm ctx (D.AddListener sm w.ext)).2).1 = none) :
    (Run D m ctx w).1 =
      .ret (((D.Failed sm
              (D.AwaitStopped sm ctx (D.StartAsync sm ctx (D.AddListener sm w.ext)).2).2).find?
            (fun f => !D.Is (D.FailureCase f
              (D.AwaitStopped sm ctx (D.StartAsync sm ctx (D.AddListener sm w.ext)).2).2)
              D.ErrStopProcess)).map
          (fun f => D.FailureCase f
            (D.AwaitStopped sm ctx (D.StartAsync sm ctx (D.AddListener sm w.ext)).2).2)) ∧
    ((Run D m ctx w).1 = .ret none ↔
      ∀ f ∈ D.Failed sm
          (D.AwaitStopped sm ctx (D.StartAsync sm ctx (D.AddListener sm w.ext)).2).2,
        D.Is (D.FailureCase f
          (D.AwaitStopped sm ctx (D.StartAsync sm ctx (D.AddListener sm w.ext)).2).2)
          D.ErrStopProcess = true) := by
  have hlen : ¬ m.ServiceMap.length = 0 := by
    simpa [List.length_eq_zero] using hmap
  have hrun : (Run D m ctx w).1 =
      .ret (failedLoop D
        (D.AwaitStopped sm ctx (D.StartAsync sm ctx (D.AddListener sm w.ext)).2).2
        (D.Failed sm
          (D.AwaitStopped sm ctx (D.StartAsync sm ctx (D.AddListener sm w.ext)).2).2)) := by
    unfold Run
    rw [if_neg hlen, hsm]
    simp only [World.call]
    rcases hs : D.StartAsync sm ctx (D.AddListener sm w.ext) with ⟨e1, x1⟩
    rw [hs] at hstart hawait
    simp only at hstart hawait
    subst hstart
    simp only
    rcases ha : D.AwaitStopped sm ctx x1 with ⟨e2, x2⟩
    rw [ha] at hawait
    simp only at hawait
    subst hawait
    rfl
  rw [hrun, failedLoop_eq_find]
  refine ⟨rfl, ?_⟩
  simp [List.find?_eq_none]

/-- Witness for C1 on the demo dskit: service 1 failed with the sentinel, service 2 with
"boom", so `Run` returns "boom". -/
theorem Run_returns_first_genuine_failure_witness :
    startedService.ServiceMap ≠ [] ∧ startedService.ServiceManager = some 2 ∧
    (demoDskit.StartAsync 2 liveCtx (demoDskit.AddListener 2 mworld0.ext)).1 = none ∧
    (demoDskit.AwaitStopped 2 liveCtx
      (demoDskit.StartAsync 2 liveCtx (demoDskit.AddListener 2 mworld0.ext)).2).1 = none ∧
    (Run demoDskit startedService liveCtx mworld0).1 = .ret (some "boom") :=
  ⟨by simp [startedService], rfl, rfl, rfl,
    (Run_returns_first_genuine_failure demoDskit startedService liveCtx mworld0 2
      (by simp [startedService]) rfl rfl rfl).1.trans rfl⟩

theorem addDependencies_log (D : Dskit X MM SM Svc Err) (mm : MM)
    (deps : List (String × List String)) (w : World X (DskitCall MM SM Svc Err)) :
    ∃ evs, (addDependencies D mm deps w).2.log = w.log ++ evs ∧
      (∀ c ∈ evs, c.isInitModuleServices = false ∧ c.isNewManager = false) ∧
      (∀ mm1 mod tg e, DskitCall.AddDependency mm1 mod tg (some e) ∈ evs →
        (addDependencies D mm deps w).1 = some e) := by
  induction deps generalizing w with
  | nil => exact ⟨[], by simp [addDependencies]⟩
  | cons d rest ih =>
    obtain ⟨mod, targets⟩ := d
    simp only [addDependencies]
    rcases hd : D.AddDependency mm mod targets w.ext with ⟨r, x⟩
    cases r with
    | some err =>
      refine ⟨[.AddDependency mm mod targets (some err)], by simp [World.call], ?_, ?_⟩
      · intro c hc
        simp only [List.mem_singleton] at hc
        subst hc
        exact ⟨rfl, rfl⟩
      · intro mm1 mod1 tg1 e he
        simp only [List.mem_singleton, DskitCall.AddDependency.injEq] at he
        simp [he.2.2.2]
    | none =>
      obtain ⟨evs, hlog, hno, herr⟩ := ih (w.call (.AddDependency mm mod targets none) x)
      refine ⟨.AddDependency mm mod targets none :: evs, ?_, ?_, ?_⟩
      · rw [hlog]
        simp [World.call]
      · intro c hc
        rcases List.mem_cons.1 hc with hc | hc
        · subst hc
          exact ⟨rfl, rfl⟩
        · exact hno c hc
      · intro mm1 mod1 tg1 e he
        rcases List.mem_cons.1 he with he | he
        · simp at he
        · exact herr mm1 mod1 tg1 e he

theorem addDependencies_ok (D : Dskit X MM SM Svc Err) (mm : MM)
    (deps : List (String × List String)) (w : World X (DskitCall MM SM Svc Err))
    (h : edgesSucceed D mm deps w.ext = true) :
    addDependencies D mm deps w =
      (none, { ext := envAfterEdges D mm deps w.ext, now := w.now,
               log := w.log ++ deps.map (edgeOk mm) }) := by
  induction deps generalizing w with
  | nil => simp [addDependencies, envAfterEdges]
  | cons d rest ih =>
    obtain ⟨mod, targets⟩ := d
    simp only [edgesSucceed, Bool.and_eq_true] at h
    obtain ⟨h1, h2⟩ := h
    simp only [addDependencies, envAfterEdges]
    rcases hd : D.AddDependency mm mod targets w.ext with ⟨r, x⟩
    rw [hd] at h1 h2
    cases r with
    | some err => simp at h1
    | none =>
      simp only
      rw [ih (w.call (.AddDependency mm mod targets none) x) h2]
      simp [World.call, edgeOk]

theorem addDependencies_fail (D : Dskit X MM SM Svc Err) (mm : MM)
    (pre post : List (String × List String)) (mod : String) (tg : List String) (e : Err)
    (w : World X (DskitCall MM SM Svc Err))
    (hpre : edgesSucceed D mm pre w.ext = true)
    (hfail : (D.AddDependency mm mod tg (envAfterEdges D mm pre w.ext)).1 = some e) :
    addDependencies D mm (pre ++ (mod, tg) :: post) w =
      (some e, { ext := (D.AddDependency mm mod tg (envAfterEdges D mm pre w.ext)).2,
                 now := w.now,
                 log := w.log ++ pre.map (edgeOk mm)
                          ++ [DskitCall.AddDependency mm mod tg (some e)] }) := by
  induction pre generalizing w with
  | nil =>
    simp only [envAfterEdges] at hfail
    simp only [List.nil_append, addDependencies, envAfterEdges]
    rcases hd : D.AddDependency mm mod tg w.ext with ⟨r, x⟩
    rw [hd] at hfail
    simp only at hfail
    subst hfail
    simp [World.call]
  | cons d rest ih =>
    obtain ⟨mod1, tg1⟩ := d
    simp only [edgesSucceed, Bool.and_eq_true] at hpre
    obtain ⟨h1, h2⟩ := hpre
    simp only [envAfterEdges] at hfail
    simp only [List.cons_append, addDependencies, envAfterEdges]
    rcases hd : D.AddDependency mm mod1 tg1 w.ext with ⟨r, x⟩
    rw [hd] at h1 h2 hfail
    cases r with
    | some err => simp at h1
    | none =>
      simp only
      refine (ih (w.call (.AddDependency mm mod1 tg1 none) x) h2 hfail).trans ?_
      simp [World.call, edgeOk]

theorem addDependencies_none (D : Dskit X MM SM Svc Err) (mm : MM)
    (deps : List (String × List String)) (w : World X (DskitCall MM SM Svc Err))
    (h : (addDependencies D mm deps w).1 = none) :
    edgesSucceed D mm deps w.ext = true := by
  induction deps generalizing w with
  | nil => rfl
  | cons d rest ih =>
    obtain ⟨mod, targets⟩ := d
    simp only [addDependencies] at h
    simp only [edgesSucceed, Bool.and_eq_true]
    rcases hd : D.AddDependency mm mod targets w.ext with ⟨r, x⟩
    rw [hd] at h
    cases r with
    | some err => simp at h
    | none => exact ⟨rfl, ih (w.call (.AddDependency mm mod targets none) x) h⟩

/-- C4. `Init` fails fast with the causal error.  Take the edges of `DependencyMap` in the
order the loop visits them.  If `AddDependency` returns an error for an edge, the calls for
the edges before it having returned nil, then `Init` returns exactly that error, the service
is unchanged (no Service Manager is created) and the calls made are the `AddDependency`
calls up to and including the failing one: `InitModuleServices` and `NewManager` are not
called.  If every edge is accepted and `InitModuleServices` returns an error, `Init` returns
exactly that error after the `AddDependency` calls and the one `InitModuleServices` call,
without calling `NewManager` and with the Service Manager field as it was.  `Init` returns
nil only if every edge was accepted and `InitModuleServices` succeeded. -/
theorem Init_fails_fast (D : Dskit X MM SM Svc Err)
    (DependencyMap : List (String × List String)) (m : service MM SM Svc) (ctx : Context)
    (w : World X (DskitCall MM SM Svc Err)) :
    (∀ pre mod tg post e, DependencyMap = pre ++ (mod, tg) :: post →
      edgesSucceed D m.ModuleManager pre w.ext = true →
      (D.AddDependency m.ModuleManager mod tg
        (envAfterEdges D m.ModuleManager pre w.ext)).1 = some e →
      Init D DependencyMap m ctx w =
        (some e, m,
          { ext := (D.AddDependency m.ModuleManager mod tg
                      (envAfterEdges D m.ModuleManager pre w.ext)).2,
            now := w.now,
            log := w.log ++ pre.map (edgeOk m.ModuleManager)
                    ++ [DskitCall.AddDependency m.ModuleManager mod tg (some e)] }) ∧
      ∀ c ∈ (Init D DependencyMap m ctx w).2.2.log.drop w.log.length,
        c.isInitModuleServices = false ∧ c.isNewManager = false) ∧
    (∀ e, edgesSucceed D m.ModuleManager DependencyMap w.ext = true →
      (D.InitModuleServices m.ModuleManager m.targets
        (envAfterEdges D m.ModuleManager DependencyMap w.ext)).1 = .error e →
      Init D DependencyMap m ctx w =
        (some e, { m with ServiceMap := [] },
          { ext := (D.InitModuleServices m.ModuleManager m.targets
                      (envAfterEdges D m.ModuleManager DependencyMap w.ext)).2,
            now := w.now,
            log := w.log ++ DependencyMap.map (edgeOk m.ModuleManager)
                    ++ [DskitCall.InitModuleServices m.ModuleManager m.targets (some e)] }) ∧
      (Init D DependencyMap m ctx w).2.1.ServiceManager = m.ServiceManager ∧
      ∀ c ∈ (Init D DependencyMap m ctx w).2.2.log.drop w.log.length,
        c.isNewManager = false) ∧
    ((Init D DependencyMap m ctx w).1 = none →
      edgesSucceed D m.ModuleManager DependencyMap w.ext = true ∧
      ∃ smap, (D.InitModuleServices m.ModuleManager m.targets
        (envAfterEdges D m.ModuleManager DependencyMap w.ext)).1 = .ok smap) := by
  refine ⟨?_, ?_, ?_⟩
  · intro pre mod tg post e hsplit hpre hfail
    have hinit : Init D DependencyMap m ctx w =
        (some e, m,
          { ext := (D.AddDependency m.ModuleManager mod tg
                      (envAfterEdges D m.ModuleManager pre w.ext)).2,
            now := w.now,
            log := w.log ++ pre.map (edgeOk m.ModuleManager)
                    ++ [DskitCall.AddDependency m.ModuleManager mod tg (some e)] }) := by
      unfold Init
      rw [hsplit, addDependencies_fail D m.ModuleManager pre post mod tg e w hpre hfail]
    refine ⟨hinit, ?_⟩
    rw [hinit]
    simp only [List.append_assoc, List.drop_left]
    intro c hc
    rcases List.mem_append.1 hc with hc | hc
    · obtain ⟨d, -, rfl⟩ := List.mem_map.1 hc
      exact ⟨rfl, rfl⟩
    · simp only [List.mem_singleton] at hc
      subst hc
      exact ⟨rfl, rfl⟩
  · intro e hall hims
    have hinit : Init D DependencyMap m ctx w =
        (some e, { m with ServiceMap := [] },
          { ext := (D.InitModuleServices m.ModuleManager m.targets
                      (envAfterEdges D m.ModuleManager DependencyMap w.ext)).2,
            now := w.now,
            log := w.log ++ DependencyMap.map (edgeOk m.ModuleManager)
                    ++ [DskitCall.InitModuleServices m.ModuleManager m.targets (some e)] }) := by
      unfold Init
      rw [addDependencies_ok D m.ModuleManager DependencyMap w hall]
      simp only
      rcases hd : D.InitModuleServices m.ModuleManager m.targets
          (envAfterEdges D m.ModuleManager DependencyMap w.ext) with ⟨r, x⟩
      rw [hd] at hims
      simp only at hims
      subst hims
      simp [World.call]
    refine ⟨hinit, ?_, ?_⟩
    · rw [hinit]
    · rw [hinit]
      simp only [List.append_assoc, List.drop_left]
      intro c hc
      rcases List.mem_append.1 hc with hc | hc
      · obtain ⟨d, -, rfl⟩ := List.mem_map.1 hc
        rfl
      · simp only [List.mem_singleton] at hc
        subst hc
        rfl
  · intro hok
    have hall : edgesSucceed D m.ModuleManager DependencyMap w.ext = true := by
      apply addDependencies_none D m.ModuleManager DependencyMap w
      revert hok
      unfold Init
      rcases addDependencies D m.ModuleManager DependencyMap w with ⟨r, w1⟩
      cases r <;> simp
    refine ⟨hall, ?_⟩
    revert hok
    unfold Init
    rw [addDependencies_ok D m.ModuleManager DependencyMap w hall]
    simp only
    rcases D.InitModuleServices m.ModuleManager m.targets
        (envAfterEdges D m.ModuleManager DependencyMap w.ext) with ⟨r, x⟩
    cases r <;> simp

/-- Witness for C4 on the demo dskit.  With the table B, ghost, C the edge of the unknown
module "ghost" fails after the edge of "B" was accepted: `Init` returns its error after these
two `AddDependency` calls.  With the table B, C and target "broken" the failing constructor
makes `Init` return its error without a `NewManager` call. -/
theorem Init_fails_fast_witness :
    (ghostDeps = [("B", ["A"])] ++ ("ghost", ["A"]) :: [("C", [])] ∧
      edgesSucceed demoDskit () [("B", ["A"])] mworld0.ext = true ∧
      Init demoDskit ghostDeps (demoService ["B"]) liveCtx mworld0 =
        (some "no such module: ghost", demoService ["B"],
          { ext := 2, now := 0,
            log := [DskitCall.AddDependency () "B" ["A"] none,
                    DskitCall.AddDependency () "ghost" ["A"] (some "no such module: ghost")] })) ∧
    (edgesSucceed demoDskit () demoDeps mworld0.ext = true ∧
      Init demoDskit demoDeps (demoService ["broken"]) liveCtx mworld0 =
        (some "constructor failed", { demoService ["broken"] with ServiceMap := [] },
          { ext := 3, now := 0,
            log := [DskitCall.AddDependency () "B" ["A"] none,
                    DskitCall.AddDependency () "C" [] none,
                    DskitCall.InitModuleServices () ["broken"] (some "constructor failed")] })) :=
  ⟨⟨rfl, rfl,
      ((Init_fails_fast demoDskit ghostDeps (demoService ["B"]) liveCtx mworld0).1
        [("B", ["A"])] "ghost" ["A"] [("C", [])] "no such module: ghost" rfl rfl rfl).1⟩,
   ⟨rfl,
      ((Init_fails_fast demoDskit demoDeps (demoService ["broken"]) liveCtx mworld0).2.1
        "constructor failed" rfl rfl).1⟩⟩

theorem Init_ok_manager (D : Dskit X MM SM Svc Err)
    (DependencyMap : List (String × List String)) (m : service MM SM Svc) (ctx : Context)
    (w : World X (DskitCall MM SM Svc Err))
    (hok : (Init D DependencyMap m ctx w).1 = none) :
    ((Init D DependencyMap m ctx w).2.1.ServiceMap = [] ∧
      (Init D DependencyMap m ctx w).2.1.ServiceManager = m.ServiceManager ∧
      ∀ c ∈ (Init D DependencyMap m ctx w).2.2.log.drop w.log.length, c.isNewManager = false) ∨
    ((Init D DependencyMap m ctx w).2.1.ServiceMap ≠ [] ∧
      ∃ sm x, (Init D DependencyMap m ctx w).2.1.ServiceManager = some sm ∧
        (D.NewManager ((Init D DependencyMap m ctx w).2.1.ServiceMap.map Prod.snd) x).1 = .ok sm ∧
        DskitCall.NewManager ((Init D DependencyMap m ctx w).2.1.ServiceMap.map Prod.snd) none
          ∈ (Init D DependencyMap m ctx w).2.2.log.drop w.log.length) := by
  obtain ⟨evs, hlog, hno, -⟩ := addDependencies_log D m.ModuleManager DependencyMap w
  revert hok
  unfold Init
  rcases hadd : addDependencies D m.ModuleManager DependencyMap w with ⟨r, w1⟩
  rw [hadd] at hlog
  simp only at hlog
  cases r with
  | some err => simp
  | none =>
    simp only
    rcases hims : D.InitModuleServices m.ModuleManager m.targets w1.ext with ⟨r2, x⟩
    cases r2 with
    | error err => simp
    | ok smap =>
      simp only
      by_cases hlen : smap.length = 0
      · simp only [hlen, if_true, World.call, hlog, List.append_assoc, List.drop_left]
        intro _
        left
        refine ⟨List.length_eq_zero.1 hlen, trivial, ?_⟩
        intro c hc
        rcases List.mem_append.1 hc with hc | hc
        · exact (hno c hc).2
        · simp only [List.mem_singleton] at hc
          subst hc
          rfl
      · simp only [hlen, if_false]
        rcases hnm : D.NewManager (smap.map Prod.snd) (w1.call
            (.InitModuleServices m.ModuleManager m.targets none) x).ext with ⟨r3, x2⟩
        cases r3 with
        | error err => simp
        | ok sm =>
          simp only [World.call, hlog, List.append_assoc, List.drop_left]
          intro _
          right
          refine ⟨fun h => hlen (by simp [h]), sm, (w1.call
            (.InitModuleServices m.ModuleManager m.targets none) x).ext, rfl, ?_, by simp⟩
          rw [hnm]

/-- C5 fails on the code: a second `Init` that returns nil with an empty ServiceMap keeps the
Service Manager the first `Init` created.  The ServiceMap is then empty while a Service
Manager exists, `Run` takes its empty branch (it makes no dskit call) and `Shutdown` takes
its stopping branch (it calls `StopAsync` and `AwaitStopped` on the old manager). -/
theorem Init_keeps_old_manager_counterexample :
    firstInit.1 = none ∧ firstInit.2.1.ServiceMap = [("A", 1)] ∧
    firstInit.2.1.ServiceManager = some 1 ∧
    secondInit.1 = none ∧ secondInit.2.1.ServiceMap = [] ∧
    secondInit.2.1.ServiceManager = some 1 ∧
    Run flakyDskit secondInit.2.1 ctxDoneAt5 secondInit.2.2
      = (.ret none, { secondInit.2.2 with now := 5 }) ∧
    (Shutdown flakyDskit secondInit.2.1 ctxDoneAt5 secondInit.2.2).2.log
      = secondInit.2.2.log
          ++ [DskitCall.StopAsync 1, DskitCall.AwaitStopped 1 ctxDoneAt5 none] :=
  ⟨rfl, rfl, rfl, rfl, rfl, rfl, rfl, rfl⟩

/-- C5 as amended. After every `Init` that returns nil: with an empty ServiceMap `NewManager`
is not called and the Service Manager field keeps the value it had before the call; with a
non-empty ServiceMap the field holds the manager `NewManager` returned for exactly the
services of the map; either way `Run` never calls a method of an absent Service Manager.
When the service had no Service Manager before the call, as `ProvideService` leaves it, a
Service Manager exists exactly when the ServiceMap is non-empty, so the guard of `Run` (empty
ServiceMap) and the guard of `Shutdown` (absent Service Manager) agree. -/
theorem Init_manager_iff_services (D : Dskit X MM SM Svc Err)
    (DependencyMap : List (String × List String)) (m : service MM SM Svc) (ctx : Context)
    (w : World X (DskitCall MM SM Svc Err))
    (hok : (Init D DependencyMap m ctx w).1 = none) :
    ((Init D DependencyMap m ctx w).2.1.ServiceMap = [] →
      (Init D DependencyMap m ctx w).2.1.ServiceManager = m.ServiceManager ∧
      ∀ c ∈ (Init D DependencyMap m ctx w).2.2.log.drop w.log.length,
        c.isNewManager = false) ∧
    ((Init D DependencyMap m ctx w).2.1.ServiceMap ≠ [] →
      ∃ sm x,
        (Init D DependencyMap m ctx w).2.1.ServiceManager = some sm ∧
        (D.NewManager ((Init D DependencyMap m ctx w).2.1.ServiceMap.map Prod.snd) x).1
          = .ok sm ∧
        DskitCall.NewManager ((Init D DependencyMap m ctx w).2.1.ServiceMap.map Prod.snd) none
          ∈ (Init D DependencyMap m ctx w).2.2.log.drop w.log.length) ∧
    (∀ ctx1 w1, (Run D (Init D DependencyMap m ctx w).2.1 ctx1 w1).1 ≠ .nilDeref) ∧
    (m.ServiceManager = none →
      (((Init D DependencyMap m ctx w).2.1.ServiceManager).isSome = true
        ↔ (Init D DependencyMap m ctx w).2.1.ServiceMap ≠ []) ∧
      ((Init D DependencyMap m ctx w).2.1.ServiceMap.length = 0
        ↔ (Init D DependencyMap m ctx w).2.1.ServiceManager = none)) ∧
    (∀ cfg w0, m = (ProvideService D cfg w0).1 →
      (((Init D DependencyMap m ctx w).2.1.ServiceManager).isSome = true
        ↔ (Init D DependencyMap m ctx w).2.1.ServiceMap ≠ [])) := by
  rcases Init_ok_manager D DependencyMap m ctx w hok with
    ⟨hmap, hsm, hcalls⟩ | ⟨hmap, sm, x, hsm, hnew, hcall⟩
  · refine ⟨fun _ => ⟨hsm, hcalls⟩, fun h => absurd hmap h, ?_, ?_, ?_⟩
    · intro ctx1 w1
      unfold Run
      simp only [hmap, List.length_nil, if_true]
      cases ctx1.doneAt <;> simp
    · intro hfresh
      simp [hmap, hsm, hfresh]
    · intro cfg w0 hm
      have hfresh : m.ServiceManager = none := by rw [hm]; rfl
      simp [hmap, hsm, hfresh]
  · refine ⟨fun h => absurd h hmap, fun _ => ⟨sm, x, hsm, hnew, hcall⟩, ?_, ?_, ?_⟩
    · intro ctx1 w1
      have hlen : ¬ (Init D DependencyMap m ctx w).2.1.ServiceMap.length = 0 := by
        simpa [List.length_eq_zero] using hmap
      unfold Run
      rw [if_neg hlen, hsm]
      simp only
      split
      · simp
      · split <;> simp
    · intro _
      simp [hmap, hsm, List.length_eq_zero]
    · intro cfg w0 _
      simp [hmap, hsm]

/-- Witness for the amended C5 on the demo dskit: `Init` of the service `ProvideService`
built for target "B" returns nil, builds services 1 (module "A") and 2 (module "B") and a
manager over exactly these. -/
theorem Init_manager_iff_services_witness :
    (Init demoDskit demoDeps (ProvideService demoDskit { Target := ["B"] } mworld0).1
        liveCtx mworld0).1 = none ∧
    (ProvideService demoDskit { Target := ["B"] } mworld0).1.ServiceManager = none ∧
    (Init demoDskit demoDeps (ProvideService demoDskit { Target := ["B"] } mworld0).1
        liveCtx mworld0).2.1.ServiceMap = [("A", 1), ("B", 2)] ∧
    (Init demoDskit demoDeps (ProvideService demoDskit { Target := ["B"] } mworld0).1
        liveCtx mworld0).2.1.ServiceManager = some 2 ∧
    ((Init demoDskit demoDeps (ProvideService demoDskit { Target := ["B"] } mworld0).1
        liveCtx mworld0).2.1.ServiceManager.isSome = true
      ↔ (Init demoDskit demoDeps (ProvideService demoDskit { Target := ["B"] } mworld0).1
        liveCtx mworld0).2.1.ServiceMap ≠ []) :=
  ⟨rfl, rfl, rfl, rfl,
    ((Init_manager_iff_services demoDskit demoDeps
      (ProvideService demoDskit { Target := ["B"] } mworld0).1 liveCtx mworld0
      rfl).2.2.2.1 rfl).1⟩

/-- C6. On a service with an empty ServiceMap, `Run` calls nothing in dskit (no listener is
attached, nothing is started or awaited) and leaves the environment alone; it returns only
if the context is cancelled at some time, no earlier than that time, and then it returns
nil; under a context that is never cancelled it never returns. -/
theorem Run_empty_blocks_until_cancelled (D : Dskit X MM SM Svc Err) (m : service MM SM Svc)
    (ctx : Context) (w : World X (DskitCall MM SM Svc Err)) (hempty : m.ServiceMap = []) :
    (Run D m ctx w).2.log = w.log ∧
    (Run D m ctx w).2.ext = w.ext ∧
    (∀ t, ctx.doneAt = some t →
      (Run D m ctx w).1 = .ret none ∧ t ≤ (Run D m ctx w).2.now ∧
      w.now ≤ (Run D m ctx w).2.now ∧ ctx.cancelled (Run D m ctx w).2.now = true) ∧
    (ctx.doneAt = none → (Run D m ctx w).1 = .blocked) ∧
    (∀ err, (Run D m ctx w).1 = .ret err →
      err = none ∧ ctx.cancelled (Run D m ctx w).2.now = true) := by
  unfold Run
  simp only [hempty, List.length_nil, if_true]
  cases hd : ctx.doneAt with
  | none => simp
  | some t =>
    simp only [Context.cancelled, hd]
    refine ⟨trivial, trivial, ?_, by simp, ?_⟩
    · intro t1 ht
      simp only [Option.some.injEq] at ht
      subst ht
      simp
    · intro err herr
      simp only [Outcome.ret.injEq] at herr
      simp [herr]

/-- Witness for C6 on the demo dskit: with no targets and a context cancelled at time 5,
`Run` entered at time 0 returns nil at time 5 without a single dskit call. -/
theorem Run_empty_blocks_until_cancelled_witness :
    idleService.ServiceMap = [] ∧
    Run demoDskit idleService ctxDoneAt5 mworld0 = (.ret none, { mworld0 with now := 5 }) ∧
    (Run demoDskit idleService liveCtx mworld0).1 = .blocked :=
  ⟨rfl, rfl,
    (Run_empty_blocks_until_cancelled demoDskit idleService liveCtx mworld0 rfl).2.2.2.1 rfl⟩

/-- C7. Without a Service Manager `Shutdown` returns nil at once: no dskit call is made and
nothing changes.  With a Service Manager it calls `StopAsync` once and then `AwaitStopped`
with the caller's context once, and returns exactly what `AwaitStopped` returned, error or
nil. -/
theorem Shutdown_returns_await_result (D : Dskit X MM SM Svc Err) (m : service MM SM Svc)
    (ctx : Context) (w : World X (DskitCall MM SM Svc Err)) :
    (m.ServiceManager = none → Shutdown D m ctx w = (none, w)) ∧
    (∀ sm, m.ServiceManager = some sm →
      (Shutdown D m ctx w).1 = (D.AwaitStopped sm ctx (D.StopAsync sm w.ext)).1 ∧
      (Shutdown D m ctx w).2.ext = (D.AwaitStopped sm ctx (D.StopAsync sm w.ext)).2 ∧
      (Shutdown D m ctx w).2.log =
        w.log ++ [DskitCall.StopAsync sm,
          DskitCall.AwaitStopped sm ctx (D.AwaitStopped sm ctx (D.StopAsync sm w.ext)).1]) := by
  unfold Shutdown
  refine ⟨fun h => by rw [h], fun sm h => ?_⟩
  rw [h]
  simp [World.call]

/-- Witness for C7 on the demo dskit: without a manager nothing happens; with manager 2 and
a context that is already cancelled the error of `AwaitStopped` comes back unchanged. -/
theorem Shutdown_returns_await_result_witness :
    Shutdown demoDskit idleService liveCtx mworld0 = (none, mworld0) ∧
    (Shutdown demoDskit startedService cancelledCtx mworld0).1 = some "context canceled" ∧
    (Shutdown demoDskit startedService cancelledCtx mworld0).2.log =
      [DskitCall.StopAsync 2, DskitCall.AwaitStopped 2 cancelledCtx (some "context canceled")] :=
  ⟨(Shutdown_returns_await_result demoDskit idleService liveCtx mworld0).1 rfl, rfl, rfl⟩

theorem stringsContain_iff (values : List String) (search : String) :
    stringsContain values search = true ↔ search ∈ values := by
  induction values with
  | nil => simp [stringsContain]
  | cons v rest ih =>
    simp only [stringsContain, List.mem_cons]
    by_cases h : search = v
    · simp [h]
    · simp [h, ih]

theorem Init_targets (D : Dskit X MM SM Svc Err)
    (DependencyMap : List (String × List String)) (m : service MM SM Svc) (ctx : Context)
    (w : World X (DskitCall MM SM Svc Err)) :
    (Init D DependencyMap m ctx w).2.1.targets = m.targets := by
  unfold Init
  split
  · rfl
  · split
    · rfl
    · simp only
      split
      · rfl
      · split <;> rfl

/-- C10. `IsModuleEnabled name` holds exactly when `name` occurs in the target list, which
is the list of the configuration `ProvideService` was given.  The answer does not change
with the Module Manager, the Service Manager or the ServiceMap, nor across `Init`: a module
outside the target list reports false before and after `Init`, whatever `Init` built. -/
theorem IsModuleEnabled_iff_target (D : Dskit X MM SM Svc Err) (m : service MM SM Svc)
    (name : String) :
    (IsModuleEnabled m name = true ↔ name ∈ m.targets) ∧
    (∀ (cfg : Cfg) (w : World X (DskitCall MM SM Svc Err)),
      IsModuleEnabled (ProvideService D cfg w).1 name = true ↔ name ∈ cfg.Target) ∧
    (∀ (mm : MM) (sm : Option SM) (smap : List (String × Svc)),
      IsModuleEnabled
        { m with ModuleManager := mm, ServiceManager := sm, ServiceMap := smap } name
        = IsModuleEnabled m name) ∧
    (∀ (deps : List (String × List String)) (ctx : Context)
        (w : World X (DskitCall MM SM Svc Err)),
      IsModuleEnabled (Init D deps m ctx w).2.1 name = IsModuleEnabled m name) ∧
    (∀ (deps : List (String × List String)) (ctx : Context)
        (w : World X (DskitCall MM SM Svc Err)),
      name ∉ m.targets →
        IsModuleEnabled m name = false ∧
        IsModuleEnabled (Init D deps m ctx w).2.1 name = false) := by
  have hinit : ∀ (deps : List (String × List String)) (ctx : Context)
      (w : World X (DskitCall MM SM Svc Err)),
      IsModuleEnabled (Init D deps m ctx w).2.1 name = IsModuleEnabled m name := by
    intro deps ctx w
    simp only [IsModuleEnabled, Init_targets]
  have hfalse : name ∉ m.targets → IsModuleEnabled m name = false := by
    intro h
    cases hb : IsModuleEnabled m name with
    | false => rfl
    | true => exact absurd ((stringsContain_iff m.targets name).1 hb) h
  refine ⟨stringsContain_iff m.targets name, ?_, fun _ _ _ => rfl, hinit, ?_⟩
  · intro cfg w
    exact stringsContain_iff cfg.Target name
  · intro deps ctx w h
    exact ⟨hfalse h, (hinit deps ctx w).trans (hfalse h)⟩

/-- Witness for C10 on the demo dskit: with target "B", `Init` builds services for modules
"A" and "B"; "B" is enabled, the dependency "A" is not, before and after `Init`. -/
theorem IsModuleEnabled_iff_target_witness :
    (Init demoDskit demoDeps (demoService ["B"]) liveCtx mworld0).2.1.ServiceMap
      = [("A", 1), ("B", 2)] ∧
    IsModuleEnabled (demoService ["B"]) "B" = true ∧
    (IsModuleEnabled (demoService ["B"]) "A" = false ∧
      IsModuleEnabled (Init demoDskit demoDeps (demoService ["B"]) liveCtx mworld0).2.1 "A"
        = false) :=
  ⟨rfl, rfl,
    (IsModuleEnabled_iff_target demoDskit (demoService ["B"]) "A").2.2.2.2
      demoDeps liveCtx mworld0 (by decide)⟩

end

end modules

end Grafana
